import Mathlib

/-!
Tailwind theme configuration: data model and checked properties.

Shallow embedding of `tailwind.config.js`.  The module is one `export default`
of an object literal.  Every object of the literal is embedded as an association
list in the order written: all keys of the literal are non-numeric strings, for
which the order of enumeration is the order of insertion.
-/

namespace TailwindConfig

/-! ## Data model -/

/-- An object literal with string keys, in the order written. -/
abbrev Obj (α : Type) := List (String × α)

/-- An entry of `content.safelist`: a regular-expression literal (kept as its
source text, between the slashes) or a class name. -/
inductive SafelistEntry where
  | pattern (source : String)
  | literal (cls : String)
  deriving DecidableEq, Repr

/-- A value of `theme.colors`: a colour string or a nested group of colours. -/
inductive ColorValue where
  | token (value : String)
  | group (entries : Obj String)
  deriving DecidableEq, Repr

/-- The `content` section. -/
structure Content where
  files : List String
  safelist : List SafelistEntry
  deriving DecidableEq, Repr

/-- The `theme` section.  A keyframe definition maps percentage keys to style
declarations. -/
structure Theme where
  fontFamily : Obj (List String)
  colors : Obj ColorValue
  borderWidth : Obj String
  keyframes : Obj (Obj (Obj String))
  animation : Obj String
  deriving DecidableEq, Repr

/-- The exported configuration object. -/
structure Configuration where
  content : Content
  theme : Theme
  plugins : List String
  deriving DecidableEq, Repr

/-! ## The literal of `tailwind.config.js` -/

/-- Value of `content.safelist` (lines 8-22). -/
def safelist : List SafelistEntry :=
  [ .pattern "text-(winter|summer|autumn)-leaf[1-4]",
    .literal "text-brown",
    .literal "wind-gust",
    .literal "rain-fall",
    .literal "snow-fall",
    .literal "rain-drop",
    .literal "snow-drop",
    .literal "snow-highlight",
    .literal "leaf",
    .literal "tree-fade-in",
    .literal "pulse" ]

/-- Value of `theme.colors` (lines 28-61). -/
def colors : Obj ColorValue :=
  [ ("black", .token "#000505"),
    ("bg", .token "#000D14"),
    ("white", .token "#FFFFFF"),
    ("yellow", .token "#FFD23F"),
    ("blue", .token "#009FFD"),
    ("red", .token "#F50000"),
    ("brown", .token "#704E2E"),
    ("orange", .token "#DD4B1A"),
    ("green", .token "#51CB20"),
    ("winter", .group
      [ ("leaf1", "#009FFD"),
        ("leaf2", "#EAF6FF"),
        ("leaf3", "#B1EDE8"),
        ("leaf4", "#A0D9E8") ]),
    ("autumn", .group
      [ ("leaf1", "#DD4B1A"),
        ("leaf2", "#FF7700"),
        ("leaf3", "#E55812"),
        ("leaf4", "#D94C1A") ]),
    ("summer", .group
      [ ("leaf1", "#14591D"),
        ("leaf2", "#51CB20"),
        ("leaf3", "#32DE8A"),
        ("leaf4", "#28A745") ]),
    ("background", .group
      [ ("blue", "#001B29"),
        ("brown", "#1D140C"),
        ("black", "#000505") ]) ]

/-- Value of `theme.keyframes` (lines 65-127). -/
def keyframes : Obj (Obj (Obj String)) :=
  [ ("windGust",
      [ ("0%", [("transform", "translateX(0)")]),
        ("50%", [("transform", "translateX(var(--wind-distance, 10px))")]),
        ("100%", [("transform", "translateX(0px)")]) ]),
    ("rainFall",
      [ ("0%", [("transform", "translateY(0) translateX(0)"), ("opacity", "1")]),
        ("100%",
          [ ("transform", "translateY(100vh) translateX(calc(var(--wind-power, 0px)))"),
            ("opacity", "0") ]) ]),
    ("snowFall",
      [ ("0%", [("transform", "translateY(0) translateX(0)"), ("opacity", "1")]),
        ("100%",
          [ ("transform", "translateY(100vh) translateX(calc(var(--wind-power, 0px)))"),
            ("opacity", "0") ]) ]),
    ("fadeIn",
      [ ("0%", [("opacity", "0")]),
        ("100%", [("opacity", "1")]) ]),
    ("fadeOut",
      [ ("0%", [("opacity", "1")]),
        ("100%", [("opacity", "0")]) ]),
    ("pulse",
      [ ("0%", [("opacity", "1")]),
        ("50%", [("opacity", "0.6")]),
        ("100%", [("opacity", "1")]) ]),
    ("spin",
      [ ("0%", [("transform", "rotate(0deg)")]),
        ("100%", [("transform", "rotate(360deg)")]) ]),
    ("loadIn",
      [ ("0%", [("opacity", "0"), ("filter", "grayscale(100%)")]),
        ("45%", [("opacity", "0.1"), ("filter", "grayscale(100%)")]),
        ("75%", [("filter", "grayscale(90%)")]),
        ("100%", [("opacity", "1"), ("filter", "grayscale(0%)")]) ]) ]

/-- Value of `theme.animation` (lines 128-138). -/
def animation : Obj String :=
  [ ("wind-gust", "windGust var(--wind-duration, 0.75s) ease-in-out forwards"),
    ("rain-fall", "rainFall 3s linear forwards"),
    ("snow-fall", "snowFall 7s linear forwards"),
    ("fade-in", "fadeIn 0.5s ease-in-out"),
    ("site-fade-in", "loadIn 1.5s ease-in"),
    ("fade-out", "fadeOut 0.5s ease-in-out"),
    ("tree-fade-in", "fadeIn 0.5s ease forwards"),
    ("pulse", "pulse 5s ease-in-out infinite"),
    ("spin", "spin 1s linear infinite") ]

/-- The object of `export default` (lines 5-141).  `defaultMono` stands for the
imported `defaultTheme.fontFamily.mono`, which is spread after "Roboto Mono". -/
def tailwindConfig (defaultMono : List String) : Configuration :=
  { content :=
      { files := ["./src/**/*.\x7bhtml,js,svelte,ts\x7d"],
        safelist := safelist },
    theme :=
      { fontFamily := [("mono", "Roboto Mono" :: defaultMono)],
        colors := colors,
        borderWidth := [("DEFAULT", "0.5px")],
        keyframes := keyframes,
        animation := animation },
    plugins := [] }

/-! ## Reading the data -/

/-- Keys of an object, in order. -/
def keysOf {α : Type} (o : Obj α) : List String := o.map Prod.fst

/-- Property lookup `o[k]`. -/
def lookup {α : Type} (o : Obj α) (k : String) : Option α :=
  match o with
  | [] => none
  | (k', v) :: rest => if k' = k then some v else lookup rest k

/-- White space that separates the components of an animation shorthand. -/
def isSpace (c : Char) : Bool := c = ' ' || c = '\t' || c = '\n'

/-- First whitespace-separated token of a text. -/
def firstToken (cs : List Char) : List Char :=
  (cs.dropWhile isSpace).takeWhile (fun c => !isSpace c)

/-- Keyframe name referenced by an animation shorthand: its first token. -/
def keyframeRef (shorthand : String) : String := ⟨firstToken shorthand.data⟩

/-- Names of the animation bindings whose shorthand references keyframe `kf`. -/
def referrers (anim : Obj String) (kf : String) : List String :=
  keysOf (anim.filter (fun b => keyframeRef b.2 = kf))

/-! ## Keyframe percentages -/

/-- Decimal value of a run of digits, continuing from `acc`; `none` when a
character is not a digit. -/
def parseDigits (acc : Nat) : List Char → Option Nat
  | [] => some acc
  | c :: cs => if c.isDigit then parseDigits (acc * 10 + (c.toNat - 48)) cs else none

/-- Numeric value of a percentage key such as `50%`. -/
def parsePercent (key : String) : Option Nat :=
  match key.data.reverse with
  | '%' :: rd => if rd = [] then none else parseDigits 0 rd.reverse
  | _ => none

/-- Percentages of the keys of a keyframe definition, in the order written;
`none` when some key is not a percentage. -/
def percentages {α : Type} (definition : Obj α) : Option (List Nat) :=
  (keysOf definition).mapM parsePercent

/-- A list of numbers is strictly increasing. -/
def strictlyIncreasing : List Nat → Bool
  | a :: b :: rest => decide (a < b) && strictlyIncreasing (b :: rest)
  | _ => true

/-- A keyframe definition is a well-formed sequence: its keys are percentages,
the first is 0%, the last is 100%, and they strictly increase. -/
def validKeyframeSequence {α : Type} (definition : Obj α) : Bool :=
  match percentages definition with
  | some ps => ps.head? = some 0 && ps.getLast? = some 100 && strictlyIncreasing ps
  | none => false

/-! ## Colours -/

/-- A hexadecimal digit, in either case. -/
def isHexDigit (c : Char) : Bool :=
  ('0' ≤ c && c ≤ '9') || ('A' ≤ c && c ≤ 'F') || ('a' ≤ c && c ≤ 'f')

/-- The text matches `^#[0-9A-Fa-f]{6}$`. -/
def isHexColor (value : String) : Bool :=
  match value.data with
  | '#' :: ds => ds.length = 6 && ds.all isHexDigit
  | _ => false

/-- Every colour token of `theme.colors` with its path: `[name]` for a top-level
token, `[group, name]` for an entry of a group. -/
def colorTokens : Obj ColorValue → List (List String × String)
  | [] => []
  | (k, .token v) :: rest => ([k], v) :: colorTokens rest
  | (k, .group es) :: rest => es.map (fun e => ([k, e.1], e.2)) ++ colorTokens rest

/-- Names of the seasonal colour groups. -/
def seasons : List String := ["winter", "autumn", "summer"]

/-- The colours have a group `g` that contains the key `k`. -/
def hasGroupKey (cols : Obj ColorValue) (g k : String) : Bool :=
  match lookup cols g with
  | some (.group es) => (keysOf es).contains k
  | _ => false

/-! ## Animation shorthands -/

/-- Components of a shorthand: split at white space outside parentheses.
`depth` counts the open parentheses, `cur` holds the component being read, most
recent character first. -/
def splitTop (depth : Nat) (cur : List Char) : List Char → List (List Char)
  | [] => if cur = [] then [] else [cur.reverse]
  | c :: cs =>
    if isSpace c && depth = 0 then
      if cur = [] then splitTop depth [] cs else cur.reverse :: splitTop depth [] cs
    else if c = '(' then splitTop (depth + 1) (c :: cur) cs
    else if c = ')' then splitTop (depth - 1) (c :: cur) cs
    else splitTop depth (c :: cur) cs

/-- Components of an animation shorthand. -/
def components (shorthand : String) : List String :=
  (splitTop 0 [] shorthand.data).map String.mk

/-- Duration of an animation shorthand: its second component. -/
def durationOf (shorthand : String) : Option String := (components shorthand)[1]?

/-- Text after the leading white space. -/
def trimLeft (cs : List Char) : List Char := cs.dropWhile isSpace

/-- Text without leading and trailing white space. -/
def trim (cs : List Char) : List Char := (trimLeft (trimLeft cs).reverse).reverse

/-- Fallback of a `var(--name, fallback)` value: the text after the first comma
up to the closing parenthesis, trimmed; `none` when the value is not a `var()`
with a fallback. -/
def varFallback (value : String) : Option String :=
  match value.data with
  | 'v' :: 'a' :: 'r' :: '(' :: body =>
    match body.reverse with
    | ')' :: rbody =>
      match (rbody.reverse.dropWhile (fun c => c != ',')) with
      | ',' :: fb => some ⟨trim fb⟩
      | _ => none
    | _ => none
  | _ => none

/-- Duration an animation runs for when no custom property overrides it: the
fallback of a `var()` duration, the duration itself otherwise. -/
def defaultDuration (shorthand : String) : Option String :=
  match durationOf shorthand with
  | some d =>
    match varFallback d with
    | some fb => some fb
    | none => some d
  | none => none

/-! ## Safelist patterns

The pattern of the safelist is a regular-expression literal.  Its source text is
read by the grammar of patterns restricted to what the file uses: characters,
groups with alternatives, and character classes with ranges.  Any other
construct is reported as unsupported, never accepted. -/

/-- An item of a character class: one character or a range. -/
inductive ClassItem where
  | single (c : Char)
  | range (lo hi : Char)
  deriving DecidableEq, Repr

/-- A parsed pattern. -/
inductive Re where
  | empty
  | char (c : Char)
  | cls (items : List ClassItem)
  | seq (a b : Re)
  | alt (a b : Re)
  | group (r : Re)
  deriving DecidableEq, Repr

/-- Reasons a pattern does not compile. -/
inductive RegexError where
  | unterminatedGroup
  | unmatchedParenthesis
  | unterminatedClass
  | rangeOutOfOrder
  | unsupported (c : Char)
  deriving DecidableEq, Repr

/-- Items of a character class from the text between the brackets.  A range
whose bounds descend is an error. -/
def classItems : List Char → Except RegexError (List ClassItem)
  | [] => .ok []
  | lo :: '-' :: hi :: rest =>
    if lo ≤ hi then
      match classItems rest with
      | .ok items => .ok (.range lo hi :: items)
      | .error e => .error e
    else .error .rangeOutOfOrder
  | c :: rest =>
    match classItems rest with
    | .ok items => .ok (.single c :: items)
    | .error e => .error e

/-- A disjunction being read: the alternatives already closed by a bar and the
terms of the current alternative, both most recent first. -/
structure Frame where
  alts : List Re
  cur : List Re
  deriving DecidableEq, Repr

/-- State of the reader: the innermost open disjunction, the enclosing ones,
and the text of the character class being read, if any (most recent first). -/
structure ParseState where
  top : Frame
  outer : List Frame
  cls : Option (List Char)
  deriving DecidableEq, Repr

/-- Concatenation of terms. -/
def seqOf : List Re → Re
  | [] => .empty
  | [r] => r
  | r :: rest => .seq r (seqOf rest)

/-- Disjunction of alternatives. -/
def altOf : List Re → Re
  | [] => .empty
  | [r] => r
  | r :: rest => .alt r (altOf rest)

/-- The disjunction a frame holds. -/
def Frame.close (f : Frame) : Re := altOf (seqOf f.cur.reverse :: f.alts).reverse

/-- One character of the pattern. -/
def parseStep (st : ParseState) (c : Char) : Except RegexError ParseState :=
  match st.cls with
  | some text =>
    if c = ']' then
      match classItems text.reverse with
      | .ok items => .ok { st with top := { st.top with cur := .cls items :: st.top.cur }, cls := none }
      | .error e => .error e
    else if c = '\\' then .error (.unsupported c)
    else if c = '^' && text = [] then .error (.unsupported c)
    else .ok { st with cls := some (c :: text) }
  | none =>
    if c = '(' then .ok { st with top := ⟨[], []⟩, outer := st.top :: st.outer }
    else if c = ')' then
      match st.outer with
      | [] => .error .unmatchedParenthesis
      | f :: fs => .ok { st with top := { f with cur := .group st.top.close :: f.cur }, outer := fs }
    else if c = '|' then
      .ok { st with top := ⟨seqOf st.top.cur.reverse :: st.top.alts, []⟩ }
    else if c = '[' then .ok { st with cls := some [] }
    else if c = '*' || c = '+' || c = '?' || c = '\x7b' || c = '\x7d' || c = ']'
        || c = '\\' || c = '.' || c = '^' || c = '$' || c = '/' then
      .error (.unsupported c)
    else .ok { st with top := { st.top with cur := .char c :: st.top.cur } }

/-- Read the characters of a pattern from a state. -/
def parseFrom (st : ParseState) : List Char → Except RegexError ParseState
  | [] => .ok st
  | c :: cs =>
    match parseStep st c with
    | .ok st' => parseFrom st' cs
    | .error e => .error e

/-- Compile the source text of a pattern. -/
def compile (source : String) : Except RegexError Re :=
  match parseFrom ⟨⟨[], []⟩, [], none⟩ source.data with
  | .ok st =>
    match st.cls, st.outer with
    | some _, _ => .error .unterminatedClass
    | none, _ :: _ => .error .unterminatedGroup
    | none, [] => .ok st.top.close
  | .error e => .error e

/-- A character belongs to a class item. -/
def ClassItem.contains (i : ClassItem) (x : Char) : Bool :=
  match i with
  | .single c => x = c
  | .range lo hi => lo ≤ x && x ≤ hi

/-- Every range of the pattern ascends. -/
def Re.rangesAscend : Re → Bool
  | .empty => true
  | .char _ => true
  | .cls items => items.all (fun i => match i with | .single _ => true | .range lo hi => lo ≤ hi)
  | .seq a b => a.rangesAscend && b.rangesAscend
  | .alt a b => a.rangesAscend && b.rangesAscend
  | .group r => r.rangesAscend

/-- No alternative of a disjunction of the pattern is empty. -/
def Re.altsNonEmpty : Re → Bool
  | .empty => true
  | .char _ => true
  | .cls _ => true
  | .seq a b => a.altsNonEmpty && b.altsNonEmpty
  | .alt a b => a != .empty && b != .empty && a.altsNonEmpty && b.altsNonEmpty
  | .group r => r.altsNonEmpty

/-- Backtracking matcher: the texts that can remain after the pattern matches
at the start of `w`. -/
def Re.matchAt : Re → List Char → List (List Char)
  | .empty, w => [w]
  | .char _, [] => []
  | .char c, x :: xs => if x = c then [xs] else []
  | .cls _, [] => []
  | .cls items, x :: xs => if items.any (fun i => i.contains x) then [xs] else []
  | .seq a b, w => (a.matchAt w).flatMap (fun rest => b.matchAt rest)
  | .alt a b, w => a.matchAt w ++ b.matchAt w
  | .group r, w => r.matchAt w

/-- The pattern matches the whole text. -/
def Re.fullMatch (r : Re) (w : String) : Bool := (r.matchAt w.data).contains []

/-- The pattern matches somewhere in the text, as `RegExp.prototype.test` does
for a pattern without flags. -/
def Re.test (r : Re) (w : String) : Bool :=
  w.data.tails.any (fun t => !(r.matchAt t).isEmpty)

/-- Source texts of the pattern entries of a safelist. -/
def patternSources : List SafelistEntry → List String
  | [] => []
  | .pattern src :: rest => src :: patternSources rest
  | .literal _ :: rest => patternSources rest

/-- The compiled pattern entries of a safelist. -/
def compiledPatterns (sl : List SafelistEntry) : List Re :=
  (patternSources sl).filterMap (fun src =>
    match compile src with
    | .ok r => some r
    | .error _ => none)

/-- Class name of a leaf colour: `text-<season>-leaf<n>`. -/
def leafClass (season n : String) : String := "text-" ++ season ++ "-leaf" ++ n


/-- Digits as texts. -/
def digits : List String := ["0", "1", "2", "3", "4", "5", "6", "7", "8", "9"]

/-- Characters of a class item, listed. -/
def ClassItem.chars : ClassItem → List Char
  | .single c => [c]
  | .range lo hi =>
    ((List.range (hi.toNat + 1 - lo.toNat)).map (fun i => Char.ofNat (lo.toNat + i))).filter
      (fun c => lo ≤ c && c ≤ hi)

/-- The texts a pattern matches, listed: the pattern has no repetition, so they
are finitely many. -/
def Re.lang : Re → List (List Char)
  | .empty => [[]]
  | .char c => [[c]]
  | .cls items => (items.flatMap ClassItem.chars).map (fun c => [c])
  | .seq a b => a.lang.flatMap (fun m => b.lang.map (fun m' => m ++ m'))
  | .alt a b => a.lang ++ b.lang
  | .group r => r.lang

/-- The twelve class names of the seasonal leaf colours. -/
def leafClasses : List String :=
  ["winter", "summer", "autumn"].flatMap (fun s => ["1", "2", "3", "4"].map (fun n => leafClass s n))

/-! ## Loading

Loading the configuration is the evaluation of the module: its text is parsed,
which compiles every regular-expression literal, and the object literal of
`export default` is built.  The module has no other statement.  The imports are
taken as resolved. -/

/-- Validation failures named by the specification. -/
inductive LoadError where
  | InvalidColorValue
  | InvalidKeyframeSequence
  | DanglingAnimationReference
  | InvalidSafelistPattern
  deriving DecidableEq, Repr

/-- Ways a load can fail: a syntax error of the module text, raised for a
regular-expression literal that does not compile, or a validation failure.  No
code of the module produces a validation failure. -/
inductive LoadFailure where
  | syntaxError (e : RegexError)
  | validation (e : LoadError)
  deriving DecidableEq, Repr

/-- Result of a load.  `unmodelled` stands for a module text whose evaluation
this development does not describe. -/
inductive LoadResult where
  | loaded (c : Configuration)
  | failed (f : LoadFailure)
  | unmodelled
  deriving DecidableEq, Repr

/-- Keys that an object literal keeps as written and in the order written: no
key is repeated (a repeated key keeps one entry), none consists of digits only
(such keys are enumerated first), none is `__proto__` (it sets the prototype). -/
def plainKeys (ks : List String) : Bool :=
  decide ks.Nodup && ks.all (fun k => !(k.data.all Char.isDigit) && k != "__proto__")

/-- Every object literal of the configuration has plain keys. -/
def plainLiteral (c : Configuration) : Bool :=
  plainKeys (keysOf c.theme.fontFamily) &&
  plainKeys (keysOf c.theme.colors) &&
  c.theme.colors.all (fun e =>
    match e.2 with
    | .token _ => true
    | .group es => plainKeys (keysOf es)) &&
  plainKeys (keysOf c.theme.borderWidth) &&
  plainKeys (keysOf c.theme.keyframes) &&
  c.theme.keyframes.all (fun kf =>
    plainKeys (keysOf kf.2) && kf.2.all (fun stop => plainKeys (keysOf stop.2))) &&
  plainKeys (keysOf c.theme.animation)

/-- A text that can stand between the slashes of a regular-expression literal:
not empty and without a line terminator. -/
def writablePattern (src : String) : Bool :=
  src.data != [] &&
    src.data.all (fun c => c != '\n' && c != '\r' && c.toNat != 0x2028 && c.toNat != 0x2029)

/-- The literal is one whose evaluation is described here: its objects have
plain keys and its patterns can be written as literals. -/
def modelledLiteral (c : Configuration) : Bool :=
  plainLiteral c && (patternSources c.content.safelist).all writablePattern

/-- First error met when the patterns are compiled in order. -/
def firstCompileError : List String → Option RegexError
  | [] => none
  | src :: rest =>
    match compile src with
    | .ok _ => firstCompileError rest
    | .error e => some e

/-- Evaluation of the module whose `export default` literal is `c`.  A pattern
that does not compile is a syntax error and no configuration is produced; when
all patterns compile the object of the literal is the configuration.  Nothing
else of the literal is inspected: colours, keyframe sequences and animation
references are not checked.  Where a pattern uses a construct outside the
grammar read by `compile`, or the literal is not a modelled one, the result is
left unmodelled. -/
def load (c : Configuration) : LoadResult :=
  if modelledLiteral c then
    match firstCompileError (patternSources c.content.safelist) with
    | none => .loaded c
    | some (.unsupported _) => .unmodelled
    | some e => .failed (.syntaxError e)
  else .unmodelled

/-- The keyframe definitions of the file with windGust written out of order, its
keys being 0%, 100%, 50%; the other seven definitions are as in the file. -/
def outOfOrderKeyframes : Obj (Obj (Obj String)) :=
  ("windGust",
    [ ("0%", [("transform", "translateX(0)")]),
      ("100%", [("transform", "translateX(0px)")]),
      ("50%", [("transform", "translateX(var(--wind-distance, 10px))")]) ]) :: keyframes.tail

/-- The configuration of the file with `theme.keyframes` written as `kfs`. -/
def withKeyframes (c : Configuration) (kfs : Obj (Obj (Obj String))) : Configuration :=
  { c with theme := { c.theme with keyframes := kfs } }

/-- The configuration of the file with windGust written out of order. -/
def outOfOrderConfig : Configuration := withKeyframes (tailwindConfig []) outOfOrderKeyframes

/-- The keyframe definitions of the file with fadeIn written without its 100%
anchor; the other seven definitions are as in the file. -/
def missingAnchorKeyframes : Obj (Obj (Obj String)) :=
  keyframes.map (fun kf => if kf.1 = "fadeIn" then (kf.1, [("0%", [("opacity", "0")])]) else kf)

/-- The configuration of the file with fadeIn written without its 100% anchor. -/
def missingAnchorConfig : Configuration :=
  withKeyframes (tailwindConfig []) missingAnchorKeyframes

/-- The configuration of the file with the safelist pattern written without its
closing parenthesis. -/
def unclosedPatternConfig : Configuration :=
  { tailwindConfig [] with
    content :=
      { (tailwindConfig []).content with
        safelist := [.pattern "text-(winter|summer|autumn-leaf[1-4]"] } }

/-! ## Auxiliary lemmas -/

theorem ClassItem.mem_chars (i : ClassItem) (x : Char) : x ∈ i.chars ↔ i.contains x = true := by
  cases i with
  | single c => simp [ClassItem.chars, ClassItem.contains]
  | range lo hi =>
    simp only [ClassItem.chars, ClassItem.contains, List.mem_filter, List.mem_map, List.mem_range,
      Bool.and_eq_true, decide_eq_true_eq]
    constructor
    · rintro ⟨_, h⟩; exact h
    · rintro ⟨h1, h2⟩
      refine ⟨⟨x.toNat - lo.toNat, ?_, ?_⟩, h1, h2⟩
      · have a1 : lo.toNat ≤ x.toNat := h1
        have a2 : x.toNat ≤ hi.toNat := h2
        omega
      · have a1 : lo.toNat ≤ x.toNat := h1
        rw [Nat.add_sub_cancel' a1]; exact Char.ofNat_toNat x

theorem Re.mem_matchAt (r : Re) : ∀ (w rest : List Char),
    rest ∈ r.matchAt w ↔ ∃ m ∈ r.lang, w = m ++ rest := by
  induction r with
  | empty => intro w rest; simp [Re.matchAt, Re.lang, eq_comm]
  | char c =>
    intro w rest
    cases w with
    | nil => simp [Re.matchAt, Re.lang]
    | cons x xs =>
      by_cases h : x = c
      · simp [Re.matchAt, Re.lang, h, eq_comm]
      · have h' : ¬ c = x := fun e => h e.symm
        simp [Re.matchAt, Re.lang, h, h']
  | cls items =>
    intro w rest
    cases w with
    | nil => simp [Re.matchAt, Re.lang]
    | cons x xs =>
      simp only [Re.matchAt, Re.lang, List.mem_map, List.mem_flatMap, ClassItem.mem_chars]
      constructor
      · intro h
        split at h
        · rename_i hx
          simp only [List.any_eq_true] at hx
          obtain ⟨i, hi, hc⟩ := hx
          simp only [List.mem_singleton] at h
          exact ⟨[x], ⟨x, ⟨i, hi, hc⟩, rfl⟩, by simp [h]⟩
        · simp at h
      · rintro ⟨m, ⟨c, ⟨i, hi, hc⟩, rfl⟩, hw⟩
        simp only [List.singleton_append, List.cons.injEq] at hw
        obtain ⟨rfl, rfl⟩ := hw
        have : (items.any fun i => i.contains x) = true := List.any_eq_true.mpr ⟨i, hi, hc⟩
        simp [this]
  | seq a b iha ihb =>
    intro w rest
    simp only [Re.matchAt, Re.lang, List.mem_flatMap, List.mem_map, iha, ihb]
    constructor
    · rintro ⟨mid, ⟨m, hm, rfl⟩, m', hm', rfl⟩
      exact ⟨m ++ m', ⟨m, hm, m', hm', rfl⟩, by simp⟩
    · rintro ⟨_, ⟨m, hm, m', hm', rfl⟩, rfl⟩
      exact ⟨m' ++ rest, ⟨m, hm, by simp⟩, m', hm', rfl⟩
  | alt a b iha ihb =>
    intro w rest
    simp only [Re.matchAt, Re.lang, List.mem_append, iha, ihb]
    constructor
    · rintro (⟨m, hm, rfl⟩ | ⟨m, hm, rfl⟩)
      · exact ⟨m, Or.inl hm, rfl⟩
      · exact ⟨m, Or.inr hm, rfl⟩
    · rintro ⟨m, hm | hm, rfl⟩
      · exact Or.inl ⟨m, hm, rfl⟩
      · exact Or.inr ⟨m, hm, rfl⟩
  | group r ih => intro w rest; simpa only [Re.matchAt, Re.lang] using ih w rest

theorem Re.fullMatch_iff (r : Re) (w : String) : r.fullMatch w = true ↔ w.data ∈ r.lang := by
  simp [Re.fullMatch, Re.mem_matchAt]

theorem compiledPatterns_lang :
    (compiledPatterns safelist).map Re.lang = [leafClasses.map String.data] := by decide

theorem lookup_eq_some_iff {α : Type} (o : Obj α) (h : (keysOf o).Nodup) (k : String) (v : α) :
    lookup o k = some v ↔ (k, v) ∈ o := by
  induction o with
  | nil => simp [lookup]
  | cons e rest ih =>
    obtain ⟨k', v'⟩ := e
    simp only [keysOf, List.map_cons, List.nodup_cons, List.mem_map, not_exists, not_and] at h
    have ih' := ih h.2
    simp only [lookup, List.mem_cons, Prod.mk.injEq]
    by_cases hk : k' = k
    · subst hk
      simp only [if_true, Option.some.injEq, true_and]
      constructor
      · intro e; exact Or.inl e.symm
      · rintro (e | hm)
        · exact e.symm
        · exact absurd rfl (h.1 (k', v) hm)
    · have hk' : ¬ k = k' := fun e => hk e.symm
      simp [hk, hk', ih']

theorem hasGroupKey_eq_true_iff (cols : Obj ColorValue) (s k : String) :
    hasGroupKey cols s k = true ↔ ∃ es, lookup cols s = some (.group es) ∧ k ∈ keysOf es := by
  unfold hasGroupKey
  split
  · rename_i es h; simp [h]
  · rename_i h
    simp only [Bool.false_eq_true, false_iff, not_exists, not_and]
    intro es he; exact absurd he (h es)

theorem hasGroupKey_iff (s k : String) :
    hasGroupKey colors s k = true ↔
      s ∈ ["winter", "autumn", "summer"] ∧ k ∈ ["leaf1", "leaf2", "leaf3", "leaf4"] ∨
      s = "background" ∧ k ∈ ["blue", "brown", "black"] := by
  rw [hasGroupKey_eq_true_iff]
  have hnd : (keysOf colors).Nodup := by decide
  simp only [lookup_eq_some_iff colors hnd]
  constructor
  · rintro ⟨es, hm, hk⟩
    simp only [colors, List.mem_cons, Prod.mk.injEq, List.mem_singleton, List.not_mem_nil,
      or_false, ColorValue.group.injEq, and_false, false_or, reduceCtorEq] at hm
    rcases hm with ⟨rfl, rfl⟩ | ⟨rfl, rfl⟩ | ⟨rfl, rfl⟩ | ⟨rfl, rfl⟩
    all_goals simp [keysOf] at hk ⊢
    all_goals exact hk
  · rintro (⟨hs, hk⟩ | ⟨rfl, hk⟩)
    · simp only [List.mem_cons, List.mem_singleton, List.not_mem_nil, or_false] at hs
      rcases hs with rfl | rfl | rfl
      · exact ⟨_, by simp [colors]; rfl, by simpa [keysOf] using hk⟩
      · exact ⟨_, by simp [colors]; rfl, by simpa [keysOf] using hk⟩
      · exact ⟨_, by simp [colors]; rfl, by simpa [keysOf] using hk⟩
    · exact ⟨_, by simp [colors]; rfl, by simpa [keysOf] using hk⟩

theorem leaf_split (s0 : List Char) (d : Char) (h0 : '-' ∉ s0) :
    ∀ (s n : List Char), s ++ ('-' :: 'l' :: 'e' :: 'a' :: 'f' :: n) = s0 ++ ['-', 'l', 'e', 'a', 'f', d] →
      s = s0 ∧ n = [d] := by
  induction s0 with
  | nil =>
    intro s n h
    cases s with
    | nil => simpa using h
    | cons x s' =>
      cases s' with
      | nil => simp at h
      | cons y s'' =>
        have hl := congrArg List.length h
        simp at hl
        omega
  | cons a s0' ih =>
    intro s n h
    simp only [List.mem_cons, not_or] at h0
    cases s with
    | nil =>
      simp only [List.nil_append, List.cons_append, List.cons.injEq] at h
      exact absurd h.1 h0.1
    | cons x s' =>
      simp only [List.cons_append, List.cons.injEq] at h
      obtain ⟨rfl, h⟩ := h
      obtain ⟨rfl, rfl⟩ := ih h0.2 s' n h
      exact ⟨rfl, rfl⟩

theorem leafClass_data (s n : String) :
    (leafClass s n).data = 't' :: 'e' :: 'x' :: 't' :: '-' :: (s.data ++ ('-' :: 'l' :: 'e' :: 'a' :: 'f' :: n.data)) := by
  simp only [leafClass, String.data_append, List.append_assoc]
  rfl

theorem leafClass_inj (s n s0 : String) (d : Char) (h0 : '-' ∉ s0.data)
    (h : (leafClass s n).data = (leafClass s0 ⟨[d]⟩).data) : s = s0 ∧ n = ⟨[d]⟩ := by
  rw [leafClass_data, leafClass_data] at h
  simp only [List.cons.injEq, true_and] at h
  obtain ⟨h1, h2⟩ := leaf_split s0.data d h0 s.data n.data h
  exact ⟨String.ext h1, String.ext h2⟩

theorem leafClass_mem_iff (s n : String) :
    (leafClass s n).data ∈ leafClasses.map String.data ↔
      s ∈ ["winter", "summer", "autumn"] ∧ n ∈ ["1", "2", "3", "4"] := by
  constructor
  · intro h
    simp only [leafClasses, List.flatMap_cons, List.flatMap_nil, List.map_cons, List.map_nil,
      List.append_nil, List.cons_append, List.nil_append, List.mem_cons, List.not_mem_nil,
      or_false] at h
    rcases h with h | h | h | h | h | h | h | h | h | h | h | h
    all_goals
      obtain ⟨rfl, rfl⟩ := leafClass_inj s n _ _ (by decide) h
      decide
  · rintro ⟨hs, hn⟩
    simp only [List.mem_cons, List.mem_singleton, List.not_mem_nil, or_false] at hs hn
    rcases hs with rfl | rfl | rfl <;> rcases hn with rfl | rfl | rfl | rfl <;> decide

theorem leaf_key_iff (n : String) :
    ("leaf" ++ n ∈ ["leaf1", "leaf2", "leaf3", "leaf4"] ↔ n ∈ ["1", "2", "3", "4"]) ∧
      "leaf" ++ n ∉ ["blue", "brown", "black"] := by
  have hd : ("leaf" ++ n).data = 'l' :: 'e' :: 'a' :: 'f' :: n.data := by
    simp only [String.data_append]; rfl
  have key : ∀ t : String, "leaf" ++ n = t ↔ 'l' :: 'e' :: 'a' :: 'f' :: n.data = t.data := by
    intro t; rw [← hd]; exact String.ext_iff
  have key2 : ∀ t : String, n = t ↔ n.data = t.data := fun t => String.ext_iff
  have e1 : "leaf1".data = ['l', 'e', 'a', 'f', '1'] := rfl
  have e2 : "leaf2".data = ['l', 'e', 'a', 'f', '2'] := rfl
  have e3 : "leaf3".data = ['l', 'e', 'a', 'f', '3'] := rfl
  have e4 : "leaf4".data = ['l', 'e', 'a', 'f', '4'] := rfl
  have d1 : "1".data = ['1'] := rfl
  have d2 : "2".data = ['2'] := rfl
  have d3 : "3".data = ['3'] := rfl
  have d4 : "4".data = ['4'] := rfl
  have b1 : "blue".data = ['b', 'l', 'u', 'e'] := rfl
  have b2 : "brown".data = ['b', 'r', 'o', 'w', 'n'] := rfl
  have b3 : "black".data = ['b', 'l', 'a', 'c', 'k'] := rfl
  simp only [List.mem_cons, List.mem_singleton, List.not_mem_nil, or_false, key, key2,
    e1, e2, e3, e4, d1, d2, d3, d4, b1, b2, b3, List.cons.injEq, true_and]
  simp

theorem strictlyIncreasing_iff (ps : List Nat) :
    strictlyIncreasing ps = true ↔ ps.Pairwise (fun a b => a < b) := by
  rw [← List.chain'_iff_pairwise]
  induction ps with
  | nil => simp [strictlyIncreasing]
  | cons a rest ih =>
    cases rest with
    | nil => simp [strictlyIncreasing]
    | cons b rest' =>
      simp only [strictlyIncreasing, Bool.and_eq_true, decide_eq_true_eq, List.chain'_cons, ih]

theorem validKeyframeSequence_iff {α : Type} (definition : Obj α) :
    validKeyframeSequence definition = true ↔
      ∃ ps, percentages definition = some ps ∧ ps.head? = some 0 ∧ ps.getLast? = some 100 ∧
        ps.Pairwise (fun a b => a < b) := by
  unfold validKeyframeSequence
  split
  · rename_i ps h
    simp only [Bool.and_eq_true, decide_eq_true_eq, strictlyIncreasing_iff, h, Option.some.injEq,
      exists_eq_left', and_assoc]
  · rename_i h
    simp [h]

/-! ## Properties of the configuration -/

/-- C1: every animation binding of the exported configuration references, by the
first whitespace-separated token of its shorthand, a key of `theme.keyframes`;
the bindings are wind-gust, rain-fall, snow-fall, fade-in, site-fade-in,
fade-out, tree-fade-in, pulse and spin. -/
theorem animation_keyframe_defined (defaultMono : List String) (name shorthand : String)
    (h : (name, shorthand) ∈ (tailwindConfig defaultMono).theme.animation) :
    keyframeRef shorthand ∈ keysOf (tailwindConfig defaultMono).theme.keyframes ∧
      name ∈ ["wind-gust", "rain-fall", "snow-fall", "fade-in", "site-fade-in", "fade-out",
        "tree-fade-in", "pulse", "spin"] ∧
      keysOf (tailwindConfig defaultMono).theme.animation =
        ["wind-gust", "rain-fall", "snow-fall", "fade-in", "site-fade-in", "fade-out",
          "tree-fade-in", "pulse", "spin"] := by
  have key : ∀ b ∈ animation, keyframeRef b.2 ∈ keysOf keyframes ∧
      b.1 ∈ ["wind-gust", "rain-fall", "snow-fall", "fade-in", "site-fade-in", "fade-out",
        "tree-fade-in", "pulse", "spin"] := by decide
  have names : keysOf animation =
      ["wind-gust", "rain-fall", "snow-fall", "fade-in", "site-fade-in", "fade-out",
        "tree-fade-in", "pulse", "spin"] := by decide
  exact ⟨(key _ h).1, (key _ h).2, names⟩

/-- C1, at the binding wind-gust. -/
theorem animation_keyframe_defined_witness :
    ("wind-gust", "windGust var(--wind-duration, 0.75s) ease-in-out forwards") ∈
        (tailwindConfig []).theme.animation ∧
      keyframeRef "windGust var(--wind-duration, 0.75s) ease-in-out forwards" ∈
        keysOf (tailwindConfig []).theme.keyframes :=
  ⟨by decide, (animation_keyframe_defined [] "wind-gust"
    "windGust var(--wind-duration, 0.75s) ease-in-out forwards" (by decide)).1⟩

/-- C2, as stated, fails: the keyframe fadeIn is a key of `theme.keyframes` and
two animation bindings, fade-in and tree-fade-in, reference it, so not every
keyframe definition is referenced by exactly one binding. -/
theorem keyframe_referenced_once_fails :
    "fadeIn" ∈ keysOf (tailwindConfig []).theme.keyframes ∧
      referrers (tailwindConfig []).theme.animation "fadeIn" = ["fade-in", "tree-fade-in"] ∧
      ¬ ∀ kf ∈ keysOf (tailwindConfig []).theme.keyframes,
          (referrers (tailwindConfig []).theme.animation kf).length = 1 := by
  decide

/-- C2, amended: every keyframe definition of `theme.keyframes` is referenced by
at least one animation binding; fadeIn is referenced by exactly the two bindings
fade-in and tree-fade-in, and every other definition (windGust, rainFall,
snowFall, fadeOut, pulse, spin, loadIn) by exactly one. -/
theorem keyframe_referenced (defaultMono : List String) (kf : String)
    (h : kf ∈ keysOf (tailwindConfig defaultMono).theme.keyframes) :
    1 ≤ (referrers (tailwindConfig defaultMono).theme.animation kf).length ∧
      (kf = "fadeIn" →
        referrers (tailwindConfig defaultMono).theme.animation kf = ["fade-in", "tree-fade-in"]) ∧
      (kf ≠ "fadeIn" →
        (referrers (tailwindConfig defaultMono).theme.animation kf).length = 1) ∧
      kf ∈ ["windGust", "rainFall", "snowFall", "fadeIn", "fadeOut", "pulse", "spin", "loadIn"] := by
  have key : ∀ k ∈ keysOf keyframes,
      1 ≤ (referrers animation k).length ∧
      (k = "fadeIn" → referrers animation k = ["fade-in", "tree-fade-in"]) ∧
      (k ≠ "fadeIn" → (referrers animation k).length = 1) ∧
      k ∈ ["windGust", "rainFall", "snowFall", "fadeIn", "fadeOut", "pulse", "spin", "loadIn"] := by
    decide
  exact key kf h

/-- C2 amended, at the keyframes fadeIn and loadIn. -/
theorem keyframe_referenced_witness :
    referrers (tailwindConfig []).theme.animation "fadeIn" = ["fade-in", "tree-fade-in"] ∧
      (referrers (tailwindConfig []).theme.animation "loadIn").length = 1 :=
  ⟨(keyframe_referenced [] "fadeIn" (by decide)).2.1 rfl,
    (keyframe_referenced [] "loadIn" (by decide)).2.2.1 (by decide)⟩

/-- C3: for every keyframe definition of `theme.keyframes`, the keys in the
order written are percentages, the first is 0%, the last is 100%, and the
numeric percentages strictly increase. -/
theorem keyframe_percentages_ordered (defaultMono : List String) (name : String)
    (definition : Obj (Obj String))
    (h : (name, definition) ∈ (tailwindConfig defaultMono).theme.keyframes) :
    ∃ ps, percentages definition = some ps ∧ ps.head? = some 0 ∧ ps.getLast? = some 100 ∧
      ps.Pairwise (fun a b => a < b) := by
  have key : ∀ k ∈ keyframes, validKeyframeSequence k.2 = true := by decide
  exact (validKeyframeSequence_iff definition).mp (key _ h)

/-- C3, at the keyframe definition loadIn, whose percentages are 0, 45, 75, 100. -/
theorem keyframe_percentages_ordered_witness :
    percentages
        [ ("0%", [("opacity", "0"), ("filter", "grayscale(100%)")]),
          ("45%", [("opacity", "0.1"), ("filter", "grayscale(100%)")]),
          ("75%", [("filter", "grayscale(90%)")]),
          ("100%", [("opacity", "1"), ("filter", "grayscale(0%)")]) ] = some [0, 45, 75, 100] ∧
      ∃ ps, percentages
        [ ("0%", [("opacity", "0"), ("filter", "grayscale(100%)")]),
          ("45%", [("opacity", "0.1"), ("filter", "grayscale(100%)")]),
          ("75%", [("filter", "grayscale(90%)")]),
          ("100%", [("opacity", "1"), ("filter", "grayscale(0%)")]) ] = some ps ∧
        ps.head? = some 0 ∧ ps.getLast? = some 100 ∧ ps.Pairwise (fun a b => a < b) :=
  ⟨by decide, keyframe_percentages_ordered [] "loadIn" _ (by decide)⟩

/-- C4: every colour token of `theme.colors`, the nine top-level tokens and every
entry of the groups winter, autumn, summer and background, has a value that
matches `^#[0-9A-Fa-f]{6}$`: a number sign followed by exactly six hexadecimal
digits. -/
theorem color_values_hex (defaultMono : List String) (path : List String) (value : String)
    (h : (path, value) ∈ colorTokens (tailwindConfig defaultMono).theme.colors) :
    isHexColor value = true ∧
      (∃ ds, value.data = '#' :: ds ∧ ds.length = 6 ∧ ∀ d ∈ ds, isHexDigit d = true) ∧
      (colorTokens (tailwindConfig defaultMono).theme.colors).map Prod.fst =
        [["black"], ["bg"], ["white"], ["yellow"], ["blue"], ["red"], ["brown"], ["orange"],
          ["green"],
          ["winter", "leaf1"], ["winter", "leaf2"], ["winter", "leaf3"], ["winter", "leaf4"],
          ["autumn", "leaf1"], ["autumn", "leaf2"], ["autumn", "leaf3"], ["autumn", "leaf4"],
          ["summer", "leaf1"], ["summer", "leaf2"], ["summer", "leaf3"], ["summer", "leaf4"],
          ["background", "blue"], ["background", "brown"], ["background", "black"]] := by
  have key : ∀ t ∈ colorTokens colors, isHexColor t.2 = true := by decide
  have hv : isHexColor value = true := key _ h
  have paths : (colorTokens colors).map Prod.fst =
      [["black"], ["bg"], ["white"], ["yellow"], ["blue"], ["red"], ["brown"], ["orange"],
        ["green"],
        ["winter", "leaf1"], ["winter", "leaf2"], ["winter", "leaf3"], ["winter", "leaf4"],
        ["autumn", "leaf1"], ["autumn", "leaf2"], ["autumn", "leaf3"], ["autumn", "leaf4"],
        ["summer", "leaf1"], ["summer", "leaf2"], ["summer", "leaf3"], ["summer", "leaf4"],
        ["background", "blue"], ["background", "brown"], ["background", "black"]] := by decide
  refine ⟨hv, ?_, paths⟩
  unfold isHexColor at hv
  split at hv
  · rename_i ds hd
    simp only [Bool.and_eq_true, decide_eq_true_eq, List.all_eq_true] at hv
    exact ⟨ds, hd, hv.1, hv.2⟩
  · exact absurd hv (by decide)

/-- C4, at the colour summer.leaf3. -/
theorem color_values_hex_witness :
    (["summer", "leaf3"], "#32DE8A") ∈ colorTokens (tailwindConfig []).theme.colors ∧
      isHexColor "#32DE8A" = true :=
  ⟨by decide, (color_values_hex [] ["summer", "leaf3"] "#32DE8A" (by decide)).1⟩

/-- C5: each seasonal colour group of `theme.colors` (winter, autumn, summer) is
a group of exactly four entries whose keys, in order, are leaf1, leaf2, leaf3,
leaf4. -/
theorem seasonal_groups_four_leaves (defaultMono : List String) (season : String)
    (h : season ∈ seasons) :
    ∃ es, lookup (tailwindConfig defaultMono).theme.colors season = some (.group es) ∧
      es.length = 4 ∧ keysOf es = ["leaf1", "leaf2", "leaf3", "leaf4"] := by
  simp only [seasons, List.mem_cons, List.mem_singleton, List.not_mem_nil, or_false] at h
  rcases h with rfl | rfl | rfl
  · exact ⟨_, rfl, rfl, rfl⟩
  · exact ⟨_, rfl, rfl, rfl⟩
  · exact ⟨_, rfl, rfl, rfl⟩

/-- C5, at the group autumn. -/
theorem seasonal_groups_four_leaves_witness :
    "autumn" ∈ seasons ∧
      ∃ es, lookup (tailwindConfig []).theme.colors "autumn" = some (.group es) ∧
        es.length = 4 ∧ keysOf es = ["leaf1", "leaf2", "leaf3", "leaf4"] :=
  ⟨by decide, seasonal_groups_four_leaves [] "autumn" (by decide)⟩

/-- C6: the colour group winter of the configuration is exactly the ordered
entries leaf1 = #009FFD, leaf2 = #EAF6FF, leaf3 = #B1EDE8, leaf4 = #A0D9E8. -/
theorem winter_group (defaultMono : List String) :
    lookup (tailwindConfig defaultMono).theme.colors "winter" =
      some (.group
        [("leaf1", "#009FFD"), ("leaf2", "#EAF6FF"), ("leaf3", "#B1EDE8"), ("leaf4", "#A0D9E8")]) := by
  have key : lookup colors "winter" =
      some (.group
        [("leaf1", "#009FFD"), ("leaf2", "#EAF6FF"), ("leaf3", "#B1EDE8"), ("leaf4", "#A0D9E8")]) := by
    decide
  exact key

/-- C7: the animation binding wind-gust references the keyframe windGust, its
duration component is `var(--wind-duration, 0.75s)` with fallback 0.75s, and
windGust is a definition of `theme.keyframes` whose keys are exactly 0%, 50%,
100% in this order. -/
theorem wind_gust_resolves (defaultMono : List String) :
    ∃ shorthand definition,
      lookup (tailwindConfig defaultMono).theme.animation "wind-gust" = some shorthand ∧
      keyframeRef shorthand = "windGust" ∧
      durationOf shorthand = some "var(--wind-duration, 0.75s)" ∧
      varFallback "var(--wind-duration, 0.75s)" = some "0.75s" ∧
      defaultDuration shorthand = some "0.75s" ∧
      lookup (tailwindConfig defaultMono).theme.keyframes (keyframeRef shorthand) = some definition ∧
      keysOf definition = ["0%", "50%", "100%"] := by
  have key : ∃ shorthand definition,
      lookup animation "wind-gust" = some shorthand ∧
      keyframeRef shorthand = "windGust" ∧
      durationOf shorthand = some "var(--wind-duration, 0.75s)" ∧
      varFallback "var(--wind-duration, 0.75s)" = some "0.75s" ∧
      defaultDuration shorthand = some "0.75s" ∧
      lookup keyframes (keyframeRef shorthand) = some definition ∧
      keysOf definition = ["0%", "50%", "100%"] :=
    ⟨"windGust var(--wind-duration, 0.75s) ease-in-out forwards", _, by decide, by decide,
      by decide, by decide, by decide, rfl, by decide⟩
  exact key

/-- C8: every pattern entry of the safelist compiles.  The safelist has one
pattern entry, with source text `text-(winter|summer|autumn)-leaf[1-4]`; it
compiles to the characters of text-, a group of the three alternatives winter,
summer, autumn, the characters of -leaf, and a class with the range 1-4; no
alternative is empty and the range ascends. -/
theorem safelist_patterns_compile (defaultMono : List String) (source : String)
    (h : source ∈ patternSources (tailwindConfig defaultMono).content.safelist) :
    source = "text-(winter|summer|autumn)-leaf[1-4]" ∧
      ∃ re, compile source = .ok re ∧
        re = seqOf ("text-".data.map Re.char ++
          [Re.group (altOf (["winter", "summer", "autumn"].map
            (fun s => seqOf (s.data.map Re.char))))] ++
          "-leaf".data.map Re.char ++ [Re.cls [ClassItem.range '1' '4']]) ∧
        re.altsNonEmpty = true ∧ re.rangesAscend = true := by
  have hs : patternSources safelist = ["text-(winter|summer|autumn)-leaf[1-4]"] := by decide
  have h' : source ∈ patternSources safelist := h
  rw [hs, List.mem_singleton] at h'
  subst h'
  exact ⟨rfl, _, rfl, rfl, by decide, by decide⟩

/-- C8, at the pattern entry of the safelist. -/
theorem safelist_patterns_compile_witness :
    "text-(winter|summer|autumn)-leaf[1-4]" ∈ patternSources (tailwindConfig []).content.safelist ∧
      ∃ re, compile "text-(winter|summer|autumn)-leaf[1-4]" = .ok re :=
  ⟨by decide,
    let ⟨re, hre, _⟩ := (safelist_patterns_compile [] "text-(winter|summer|autumn)-leaf[1-4]"
      (by decide)).2
    ⟨re, hre⟩⟩

/-- C9, as stated, fails: the configuration of the file with the keyframe windGust
written with keys 0%, 100%, 50%, and nothing else changed, has a keyframe
sequence that is not well formed, and loading it produces that configuration
instead of raising `InvalidKeyframeSequence`. -/
theorem load_accepts_out_of_order_keyframes :
    (lookup outOfOrderConfig.theme.keyframes "windGust").map keysOf = some ["0%", "100%", "50%"] ∧
      (outOfOrderConfig.theme.keyframes.map (fun kf => validKeyframeSequence kf.2)) =
        [false, true, true, true, true, true, true, true] ∧
      outOfOrderConfig.theme.keyframes.tail = (tailwindConfig []).theme.keyframes.tail ∧
      outOfOrderConfig.content = (tailwindConfig []).content ∧
      outOfOrderConfig.theme.colors = (tailwindConfig []).theme.colors ∧
      outOfOrderConfig.theme.animation = (tailwindConfig []).theme.animation ∧
      load outOfOrderConfig = .loaded outOfOrderConfig ∧
      load outOfOrderConfig ≠ .failed (.validation .InvalidKeyframeSequence) := by
  decide

/-- C9, amended: loading does not check keyframe sequences.  No load raises
`InvalidKeyframeSequence`.  A configuration whose safelist patterns all compile
(its literal being a modelled one) is loaded as written, whether or not the
percentage keys of its keyframe definitions strictly increase from 0% to 100%.
A load fails, producing no configuration, only with the syntax error of a
pattern that does not compile. -/
theorem load_ignores_keyframe_sequences (c : Configuration) :
    load c ≠ .failed (.validation .InvalidKeyframeSequence) ∧
      (modelledLiteral c = true →
        (∀ src ∈ patternSources c.content.safelist, ∃ re, compile src = .ok re) →
        load c = .loaded c) ∧
      (∀ f, load c = .failed f →
        ∃ src ∈ patternSources c.content.safelist, ∃ e, compile src = .error e ∧
          f = .syntaxError e) ∧
      (∀ c', load c = .loaded c' →
        c' = c ∧ ∀ src ∈ patternSources c.content.safelist, ∃ re, compile src = .ok re) := by
  have hnone : ∀ l : List String, firstCompileError l = none ↔
      ∀ src ∈ l, ∃ re, compile src = .ok re := by
    intro l
    induction l with
    | nil => simp [firstCompileError]
    | cons src rest ih =>
      simp only [firstCompileError, List.mem_cons, forall_eq_or_imp]
      cases hc : compile src with
      | ok re => simp [ih]
      | error e => simp
  have hsome : ∀ (l : List String) (e : RegexError), firstCompileError l = some e →
      ∃ src ∈ l, compile src = .error e := by
    intro l
    induction l with
    | nil => intro e h; simp [firstCompileError] at h
    | cons src rest ih =>
      intro e h
      simp only [firstCompileError] at h
      cases hc : compile src with
      | ok re =>
        rw [hc] at h
        obtain ⟨s', hs', he⟩ := ih e h
        exact ⟨s', List.mem_cons_of_mem _ hs', he⟩
      | error e' =>
        rw [hc] at h
        simp only [Option.some.injEq] at h
        subst h
        exact ⟨src, List.mem_cons_self _ _, hc⟩
  unfold load
  by_cases hp : modelledLiteral c = true
  · simp only [hp, if_true]
    cases hf : firstCompileError (patternSources c.content.safelist) with
    | none =>
      have hall := (hnone _).mp hf
      refine ⟨by simp, fun _ _ => rfl, by simp, ?_⟩
      intro c' h
      simp only [LoadResult.loaded.injEq] at h
      exact ⟨h.symm, hall⟩
    | some e =>
      obtain ⟨src, hs, he⟩ := hsome _ e hf
      have hno : ¬ ∀ s ∈ patternSources c.content.safelist, ∃ re, compile s = .ok re := by
        intro hall
        obtain ⟨re, hre⟩ := hall src hs
        rw [he] at hre
        cases hre
      cases e with
      | unsupported ch =>
        exact ⟨by simp, fun _ hall => absurd hall hno, by simp, by simp⟩
      | unterminatedGroup =>
        refine ⟨by simp, fun _ hall => absurd hall hno, ?_, by simp⟩
        intro f h
        simp only [LoadResult.failed.injEq] at h
        exact ⟨src, hs, _, he, h.symm⟩
      | unmatchedParenthesis =>
        refine ⟨by simp, fun _ hall => absurd hall hno, ?_, by simp⟩
        intro f h
        simp only [LoadResult.failed.injEq] at h
        exact ⟨src, hs, _, he, h.symm⟩
      | unterminatedClass =>
        refine ⟨by simp, fun _ hall => absurd hall hno, ?_, by simp⟩
        intro f h
        simp only [LoadResult.failed.injEq] at h
        exact ⟨src, hs, _, he, h.symm⟩
      | rangeOutOfOrder =>
        refine ⟨by simp, fun _ hall => absurd hall hno, ?_, by simp⟩
        intro f h
        simp only [LoadResult.failed.injEq] at h
        exact ⟨src, hs, _, he, h.symm⟩
  · have hp' : modelledLiteral c = false := by simpa using hp
    simp [hp']

/-- C9 amended, at the configuration of the file with fadeIn written without its
100% anchor, which is loaded as written, and at the configuration of the file
with an unclosed group in the safelist pattern, whose load fails with the
syntax error of the pattern. -/
theorem load_ignores_keyframe_sequences_witness :
    (lookup missingAnchorConfig.theme.keyframes "fadeIn").map validKeyframeSequence = some false ∧
      load missingAnchorConfig = .loaded missingAnchorConfig ∧
      ∃ src ∈ patternSources unclosedPatternConfig.content.safelist,
        compile src = .error .unterminatedGroup :=
  ⟨by decide,
    (load_ignores_keyframe_sequences missingAnchorConfig).2.1 (by decide)
      (fun src h => by
        have hs : patternSources missingAnchorConfig.content.safelist =
            ["text-(winter|summer|autumn)-leaf[1-4]"] := by decide
        rw [hs, List.mem_singleton] at h
        subst h
        exact ⟨_, rfl⟩),
    let ⟨src, hs, e, he, hf⟩ := (load_ignores_keyframe_sequences unclosedPatternConfig).2.2.1
      (.syntaxError .unterminatedGroup) (by decide)
    ⟨src, hs, by
      simp only [LoadFailure.syntaxError.injEq] at hf
      rw [hf]; exact he⟩⟩

/-- C10: the safelist has one pattern, and it agrees with the seasonal palette.
For all texts `s` and `n`, the class name `text-<s>-leaf<n>` is matched in full by
the pattern exactly when `theme.colors` has a group `s` with the key `leaf<n>`;
this holds exactly for the twelve pairs of a season (winter, autumn, summer) and
a digit 1 to 4.  For every key `s` of `theme.colors` and digit `n`, the same
equivalence holds for a match anywhere in the class name. -/
theorem safelist_pattern_agrees_with_palette (defaultMono : List String) :
    ∃ r, compiledPatterns (tailwindConfig defaultMono).content.safelist = [r] ∧
      (∀ s n : String,
        (r.fullMatch (leafClass s n) = true ↔
          hasGroupKey (tailwindConfig defaultMono).theme.colors s ("leaf" ++ n) = true) ∧
        (r.fullMatch (leafClass s n) = true ↔ s ∈ seasons ∧ n ∈ ["1", "2", "3", "4"])) ∧
      (∀ s ∈ keysOf (tailwindConfig defaultMono).theme.colors, ∀ n ∈ digits,
        (r.test (leafClass s n) = true ↔
          hasGroupKey (tailwindConfig defaultMono).theme.colors s ("leaf" ++ n) = true)) := by
  have hc : ∃ r, compiledPatterns safelist = [r] ∧
      r.lang = leafClasses.map String.data ∧
      (∀ s ∈ keysOf colors, ∀ n ∈ digits,
        (r.test (leafClass s n) = true ↔ hasGroupKey colors s ("leaf" ++ n) = true)) := by
    refine ⟨_, rfl, ?_, ?_⟩
    · decide
    · decide
  obtain ⟨r, hr, hl, ht⟩ := hc
  refine ⟨r, hr, ?_, ht⟩
  intro s n
  have hm : r.fullMatch (leafClass s n) = true ↔ s ∈ seasons ∧ n ∈ ["1", "2", "3", "4"] := by
    rw [Re.fullMatch_iff, hl, leafClass_mem_iff]
    simp only [seasons, List.mem_cons, List.mem_singleton, List.not_mem_nil, or_false]
    tauto
  refine ⟨?_, hm⟩
  rw [hm]
  have hg : hasGroupKey colors s ("leaf" ++ n) = true ↔
      s ∈ ["winter", "autumn", "summer"] ∧ "leaf" ++ n ∈ ["leaf1", "leaf2", "leaf3", "leaf4"] ∨
      s = "background" ∧ "leaf" ++ n ∈ ["blue", "brown", "black"] := hasGroupKey_iff s _
  show s ∈ seasons ∧ n ∈ ["1", "2", "3", "4"] ↔ hasGroupKey colors s ("leaf" ++ n) = true
  rw [hg, (leaf_key_iff n).1]
  have hb := (leaf_key_iff n).2
  unfold seasons
  tauto

/-- C10, at the class names text-winter-leaf1 (a defined colour, matched) and
text-winter-leaf5 (no such colour, not matched). -/
theorem safelist_pattern_agrees_with_palette_witness :
    ∃ r, compiledPatterns (tailwindConfig []).content.safelist = [r] ∧
      r.fullMatch (leafClass "winter" "1") = true ∧
      r.fullMatch (leafClass "winter" "5") = false ∧
      r.test (leafClass "summer" "4") = true :=
  let ⟨r, hr, hfull, htest⟩ := safelist_pattern_agrees_with_palette []
  ⟨r, hr, ((hfull "winter" "1").1).mpr (by decide),
    by
      have h := (hfull "winter" "5").1
      cases hv : r.fullMatch (leafClass "winter" "5") with
      | false => rfl
      | true => exact absurd (h.mp hv) (by decide),
    (htest "summer" (by decide) "4" (by decide)).mpr (by decide)⟩

end TailwindConfig
